import Mathlib

/-!
Verification of the probability-estimation and calibration pipeline of the
NBABetv1 repository.

The Python sources are shallowly embedded over exact rationals (`ℚ`):
Python floats become `ℚ`, `None`/NaN optional values become `Option ℚ`,
raised exceptions become `Except`/explicit error constructors, and pandas
dataframes become an explicit column-store structure.  `np.std` (the only
irrational operation reached by the claims) is embedded through an abstract
square-root parameter `sq : ℚ → ℚ`; every theorem quantifies over `sq`, and
comparisons of a standard deviation with `0` are embedded as the equivalent
comparison of the variance with `0` (for the real square root,
`sqrt v > 0 ↔ v > 0` on `v ≥ 0`).
-/

namespace NBABet

/-! ### Generic helpers -/

/-- Arithmetic mean of a list of rationals (`np.mean` / `pd.Series.mean`);
division by zero on the empty list gives `0` in `ℚ` (the sources only take
means of nonempty lists on the paths modelled here). -/
def listMean (l : List ℚ) : ℚ := l.sum / l.length

/-- Population variance (`np.std(l) ** 2`, i.e. `np.var(l)` with `ddof = 0`). -/
def popVar (l : List ℚ) : ℚ := ((l.map (fun x => (x - listMean l) ^ 2)).sum) / l.length

/-- The last `k` elements of a list: Python's `l[-k:]` (the whole list when
`k ≥ length`). -/
def lastK (k : ℕ) (l : List ℚ) : List ℚ := l.drop (l.length - k)

/-- ASCII lower-casing of a character (`str.lower` restricted to ASCII, which
covers every string this repository compares). -/
def lowerChar (c : Char) : Char :=
  if 'A' ≤ c && c ≤ 'Z' then Char.ofNat (c.toNat + 32) else c

/-- `s.lower()` as a character list. -/
def lowerStr (s : String) : List Char := s.toList.map lowerChar

/-- Does `hay` start with `needle`? -/
def charsStart : List Char → List Char → Bool
  | [], _ => true
  | _ :: _, [] => false
  | a :: as, b :: bs => a = b && charsStart as bs

/-- Does `needle` occur as a contiguous substring of `hay`?  (Python's
`needle in hay` on strings.) -/
def charsHas (needle : List Char) : List Char → Bool
  | [] => charsStart needle []
  | b :: bs => charsStart needle (b :: bs) || charsHas needle bs

/-- Python's `a in b` for strings, after lower-casing both sides is done by
the callers below. -/
def strHas (needle hay : String) : Bool := charsHas needle.toList hay.toList

/-! ### `expected_value.py` -/

/-- Input to `american_to_decimal`: an integer/float (`num`), a float NaN
(`nanVal`), or a string. -/
inductive OddsInput where
  | num (o : ℚ)
  | nanVal
  | str (s : String)

/-- Result of `american_to_decimal`: a finite decimal-odds value, the NaN
"unknown" signal, or the `ZeroDivisionError` raised by `100 / abs(0)`. -/
inductive OddsResult where
  | val (d : ℚ)
  | nan
  | divByZero
deriving DecidableEq

/-- Numeric branch of `american_to_decimal` (after the string handling and
the `np.isnan` guard): positive odds give `o/100 + 1`; the `else` branch
computes `100 / abs(o) + 1`, which raises `ZeroDivisionError` when `o = 0`. -/
def americanNum (o : ℚ) : OddsResult :=
  if 0 < o then .val (o / 100 + 1)
  else if o = 0 then .divByZero
  else .val (100 / |o| + 1)

/-- `american_to_decimal` from `expected_value.py`.  A string equal to
`'OFF'` or `''` gives NaN; any other string is parsed as an integer
(`int(american_odds)`, embedded via `String.toInt?`), falling back to NaN
when parsing fails.  A NaN number gives NaN. -/
def american_to_decimal : OddsInput → OddsResult
  | .nanVal => .nan
  | .str s =>
      if s = "OFF" ∨ s = "" then .nan
      else match s.toInt? with
        | some n => americanNum (n : ℚ)
        | none => .nan
  | .num o => americanNum o

/-- `calculate_expected_value` from `expected_value.py` (the NaN guards on
the two required arguments are vacuous over `ℚ`; a missing or NaN implied
probability is the `none` case of the option). -/
def calculate_expected_value (probability decimal_odds : ℚ)
    (implied_probability : Option ℚ) : ℚ :=
  let implied := implied_probability.getD (1 / decimal_odds)
  let base_ev := probability * (decimal_odds - 1) - (1 - probability) * 1
  let prob_diff := |probability - implied|
  if 15/100 < prob_diff then
    let market_ev := implied * (decimal_odds - 1) - (1 - implied) * 1
    let market_weight := min (40/100) ((prob_diff - 15/100) * 2)
    (1 - market_weight) * base_ev + market_weight * market_ev
  else
    base_ev

/-- `calculate_kelly_criterion` from `expected_value.py`. -/
def calculate_kelly_criterion (probability decimal_odds : ℚ) : ℚ :=
  let b := decimal_odds - 1
  let p := probability
  let q := 1 - p
  max 0 ((b * p - q) / b)

/-! ### `modeling.py`: the probability calibrator -/

/-- The piecewise remapping at the heart of
`PropPredictor._calibrate_probability` (applied after the argument has been
clamped to `[0, 1]`). -/
def piecewise_map (p : ℚ) : ℚ :=
  if 9/10 < p then 65/100 + ((p - 9/10) / (10/100)) * (10/100)
  else if 3/4 < p then 60/100 + ((p - 3/4) / (15/100)) * (5/100)
  else if p < 1/10 then 10/100 + (p / (10/100)) * (10/100)
  else 20/100 + ((p - 10/100) / (65/100)) * (40/100)

/-- `PropPredictor._calibrate_probability` from `modeling.py` (the leading
underscore of the Python name is dropped; the unused `compression_factor`
parameter is omitted).  A supplied implied probability is clamped to
`[0.05, 0.95]` before the divergence check and the 60/40 blend. -/
def calibrate_probability (prob : ℚ) (implied_prob : Option ℚ) : ℚ :=
  let p := max 0 (min 1 prob)
  let calibrated := piecewise_map p
  let blended :=
    match implied_prob with
    | none => calibrated
    | some ip0 =>
        let ip := max (5/100) (min (95/100) ip0)
        if ip + 20/100 < calibrated then 6/10 * calibrated + 4/10 * ip
        else if calibrated < ip - 20/100 then 6/10 * calibrated + 4/10 * ip
        else calibrated
  max (10/100) (min (75/100) blended)

/-- The calibrator exactly as claim C2 words it: the same piecewise map, but
with the blend comparing against — and mixing in — the implied probability
exactly as supplied, with no prior clamp of the implied probability to
`[0.05, 0.95]`. -/
def calibrateClaimC2 (prob : ℚ) (implied_prob : Option ℚ) : ℚ :=
  let p := max 0 (min 1 prob)
  let mapped := piecewise_map p
  let blended :=
    match implied_prob with
    | none => mapped
    | some q => if 20/100 < |mapped - q| then 6/10 * mapped + 4/10 * q else mapped
  max (10/100) (min (75/100) blended)

/-- The amended form of claim C2: identical to `calibrateClaimC2` except
that the supplied implied probability is first clamped to `[0.05, 0.95]`,
and the divergence test and the blend both use the clamped value. -/
def calibrateAmendedC2 (prob : ℚ) (implied_prob : Option ℚ) : ℚ :=
  let p := max 0 (min 1 prob)
  let mapped := piecewise_map p
  let blended :=
    match implied_prob with
    | none => mapped
    | some q0 =>
        let q := max (5/100) (min (95/100) q0)
        if 20/100 < |mapped - q| then 6/10 * mapped + 4/10 * q else mapped
  max (10/100) (min (75/100) blended)

/-! ### A pandas dataframe as a column store

Text columns (player names, game ids) matter to the embedded code only
through their name and their non-numeric dtype, so every column stores `ℚ`
values together with a `numeric` dtype flag; `game_date` values are embedded
as rationals (timestamps), which is all the code uses them for (sorting). -/

/-- One dataframe column: name, numeric-dtype flag, values. -/
structure Column where
  name : String
  numeric : Bool
  vals : List ℚ
deriving DecidableEq

/-- A dataframe: an ordered list of named columns. -/
structure DataFrame where
  cols : List Column
deriving DecidableEq

/-- `df.columns`. -/
def DataFrame.colNames (df : DataFrame) : List String := df.cols.map (·.name)

/-- `df[n]` (the first column named `n`, if any). -/
def DataFrame.getCol? (df : DataFrame) (n : String) : Option Column :=
  df.cols.find? (fun c => c.name = n)

/-- `len(df)`: the row count, read off the first column. -/
def DataFrame.nRows (df : DataFrame) : ℕ :=
  (df.cols.head?.map (fun c => c.vals.length)).getD 0

/-- Every column has the same number of rows (all real dataframes satisfy
this; it is what makes `nRows` well defined). -/
def DataFrame.Wellformed (df : DataFrame) : Prop :=
  ∀ c ∈ df.cols, c.vals.length = df.nRows

/-- Insert a (key, row-index) pair into an ascending list, after any entry
with key `≤` the new key (a stable insertion). -/
def insertAsc (a : ℚ × ℕ) : List (ℚ × ℕ) → List (ℚ × ℕ)
  | [] => [a]
  | b :: bs => if b.1 ≤ a.1 then b :: insertAsc a bs else a :: b :: bs

/-- The row permutation that sorts the given key column ascending
(`df.sort_values(by=...)`; tie order in pandas' default sort is unspecified,
embedded here as stable). -/
def sortIdx (keys : List ℚ) : List ℕ :=
  ((keys.enum.map (fun p => (p.2, p.1))).foldl (fun acc a => insertAsc a acc) []).map (·.2)

/-- `df.sort_values(by='game_date').reset_index(drop=True)` when a
`game_date` column exists, the identity otherwise. -/
def DataFrame.sortByGameDate (df : DataFrame) : DataFrame :=
  match df.getCol? "game_date" with
  | none => df
  | some gd =>
      let idx := sortIdx gd.vals
      ⟨df.cols.map fun c => { c with vals := idx.map (fun i => c.vals.getD i 0) }⟩

/-- `result_df[n] = v` with a scalar right-hand side: overwrite the column
in place if it exists, else append a new (numeric) column broadcast to
`rows` rows. -/
def DataFrame.setConst (df : DataFrame) (n : String) (v : ℚ) (rows : ℕ) : DataFrame :=
  if df.colNames.contains n then
    ⟨df.cols.map fun c => if c.name = n then ⟨c.name, true, List.replicate rows v⟩ else c⟩
  else ⟨df.cols ++ [⟨n, true, List.replicate rows v⟩]⟩

/-! ### `feature_engineering.py` -/

/-- The `exclude_cols` list of `prepare_features_for_prediction`. -/
def exclude_cols : List String :=
  ["player_full_name", "player_name", "game_id", "game_date",
   "target_pts", "target_reb", "target_ast", "target_blk", "target_stl"]

/-- Column selection of `prepare_features_for_prediction`: not excluded, and
either `feat_`-prefixed or of numeric dtype. -/
def isFeatureCol (c : Column) : Bool :=
  !(exclude_cols.contains c.name) && (c.name.startsWith "feat_" || c.numeric)

/-- The `feature_cols` selection (order preserved). -/
def featureCols (df : DataFrame) : List Column := df.cols.filter isFeatureCol

/-- The `prop_to_stat` keyword table (with the `prop_type.lower()`
fallback). -/
def prop_to_stat (pt : String) : List String :=
  if pt = "Points" then ["pts", "points", "point"]
  else if pt = "Rebounds" then ["reb", "rebounds", "rebound"]
  else if pt = "Assists" then ["ast", "assists", "assist"]
  else if pt = "Threes" then ["3p", "threes", "three", "3pm", "3p_made"]
  else if pt = "Made Threes" then ["3p", "threes", "three", "3pm", "3p_made"]
  else if pt = "Steals" then ["stl", "steals", "steal"]
  else if pt = "Blocks" then ["blk", "blocks", "block"]
  else [String.mk (lowerStr pt)]

/-- One keyword match attempt:
`keyword.lower() in col.lower() and 'target' not in col.lower() and 'feat'
not in col.lower()`. -/
def kwMatches (kw : String) (col : String) : Bool :=
  charsHas (lowerStr kw) (lowerStr col) &&
  !(charsHas "target".toList (lowerStr col)) &&
  !(charsHas "feat".toList (lowerStr col))

/-- The stat-column search loop shared by `create_target_variable`,
`prepare_features_for_prediction` and `create_training_data`: the first
column matching the first keyword that matches anything. -/
def findStatColumn (colNames : List String) (pt : String) : Option String :=
  (prop_to_stat pt).findSome? fun kw => (colNames.filter (kwMatches kw)).head?

/-- The `prop_to_target` fallback table of `create_target_variable`
(including the source's `Threes → target_stl` quirk). -/
def prop_to_target (pt : String) : Option String :=
  if pt = "Points" then some "target_pts"
  else if pt = "Rebounds" then some "target_reb"
  else if pt = "Assists" then some "target_ast"
  else if pt = "Threes" then some "target_stl"
  else if pt = "Made Threes" then some "target_stl"
  else if pt = "Steals" then some "target_stl"
  else if pt = "Blocks" then some "target_blk"
  else none

/-- The fallback branch of `create_target_variable`: reuse a precomputed
`target_*` column, binarised by `> 0`; error when it cannot be located. -/
def ctvFallback (df : DataFrame) (pt : String) : Except String (List ℕ) :=
  match prop_to_target pt with
  | some tc =>
      match df.getCol? tc with
      | some col => .ok (col.vals.map fun v => if 0 < v then 1 else 0)
      | none => .error "Could not find stat or target column"
  | none => .error "Could not find stat or target column"

/-- `create_target_variable` from `feature_engineering.py`.  On the raw-stat
path the label is `(actual > line)` for Over and `(actual < line)` for
Under, and any other side raises `ValueError`; when no raw stat column is
located the fallback branch runs (and never looks at the side). -/
def create_target_variable (df : DataFrame) (pt : String) (line : ℚ)
    (over_under : String) : Except String (List ℕ) :=
  match findStatColumn df.colNames pt with
  | some sc =>
      match df.getCol? sc with
      | some col =>
          if over_under = "Over" then .ok (col.vals.map fun v => if line < v then 1 else 0)
          else if over_under = "Under" then .ok (col.vals.map fun v => if v < line then 1 else 0)
          else .error "over_under must be Over or Under"
      | none => ctvFallback df pt
  | none => ctvFallback df pt

/-- Ordinary-least-squares slope of `ys` against `xs`
(`np.polyfit(x, y, 1)[0]`). -/
def olsSlope (xs ys : List ℚ) : ℚ :=
  let xbar := listMean xs
  let ybar := listMean ys
  (((xs.zip ys).map (fun p => (p.1 - xbar) * (p.2 - ybar))).sum) /
    ((xs.map (fun x => (x - xbar) ^ 2)).sum)

/-- A conditionally added (column, scalar) pair. -/
def optAdd (c : Bool) (n : String) (v : ℚ) : Option (String × ℚ) :=
  if c then some (n, v) else none

/-- The scalar column assignments performed by the
`if len(stats) >= 5:` block of `prepare_features_for_prediction`, in source
order, as (name, value) pairs.  `sq` is the abstract square root through
which `np.std` is embedded (`recent_10_std = sq (popVar (last 10))`);
comparisons of `recent_10_std` with `0` are embedded as the equivalent
comparisons of the variance with `0`, and `np.isnan recent_10_std` /
`np.isnan recent_10_avg` hold exactly when fewer than 10 games exist. -/
def engineeredAdds (sq : ℚ → ℚ) (stats : List ℚ) (line : Option ℚ) :
    List (String × ℚ) :=
  if stats.length < 5 then []
  else
    let n := stats.length
    let r5 := listMean (lastK 5 stats)
    let has10 : Bool := decide (10 ≤ n)
    let r10 := listMean (lastK 10 stats)
    let season := listMean stats
    let var10 := popVar (lastK 10 stats)
    let std10 := sq var10
    let lineAdds : List (Option (String × ℚ)) :=
      match line with
      | some l =>
          [some ("line", l),
           some ("line_vs_recent_5", l - r5),
           some ("line_vs_recent_5_pct", (l - r5) / max r5 (1/10)),
           optAdd has10 "line_vs_recent_10" (l - r10),
           optAdd has10 "line_vs_recent_10_pct" ((l - r10) / max r10 (1/10)),
           some ("line_vs_season_avg", l - season),
           some ("line_vs_season_avg_pct", (l - season) / max season (1/10)),
           optAdd (has10 && decide (0 < var10)) "line_difficulty" ((l - r10) / std10),
           some ("recent_similar_line_count",
             let overallCnt := (stats.filter (fun s => |s - l| ≤ 3/2)).length
             let recentCnt := ((lastK 10 stats).filter (fun s => |s - l| ≤ 3/2)).length
             if 0 < overallCnt then (if 0 < recentCnt then (recentCnt : ℚ) else 0) else 0)]
      | none => []
    let recent5 := lastK 5 stats
    let xs : List ℚ := (List.range recent5.length).map (fun i => (i : ℚ))
    let trendAdds : List (Option (String × ℚ)) :=
      [some ("trend_5_games",
         if 1 < recent5.length ∧ 0 < popVar xs then olsSlope xs recent5 else 0)]
    let prev3 := listMean ((stats.drop (n - 6)).take 3)
    let last3 := listMean (lastK 3 stats)
    let momentumAdds : List (Option (String × ℚ)) :=
      [optAdd (decide (6 ≤ n)) "momentum"
        (if 0 < prev3 then (last3 - prev3) / prev3 else 0)]
    let volAdds : List (Option (String × ℚ)) := [optAdd has10 "volatility" std10]
    let consAdds : List (Option (String × ℚ)) :=
      [some ("consistency_score",
        if has10 && decide (0 < r10) then 1 - std10 / r10 else 1/2)]
    let rvsAdds : List (Option (String × ℚ)) :=
      [optAdd (decide (0 < season)) "recent_vs_season_5" ((r5 - season) / season),
       optAdd (decide (0 < season) && has10) "recent_vs_season_10" ((r10 - season) / season)]
    let interAdds : List (Option (String × ℚ)) :=
      match line with
      | some l =>
          [some ("rolling_5_x_line", r5 * l),
           some ("line_div_rolling_5", l / max r5 (1/10)),
           optAdd (has10 && decide (0 < var10)) "volatility_x_line" (std10 * l)]
      | none => []
    (lineAdds ++ trendAdds ++ momentumAdds ++ volAdds ++ consAdds ++ rvsAdds
      ++ interAdds).filterMap id

/-- `prepare_features_for_prediction` from `feature_engineering.py`.  The
per-column `fillna(0)` calls are identities over `ℚ` and the claims'
inputs (every stored scalar is a total rational expression here), so they
are not represented. -/
def prepare_features_for_prediction (sq : ℚ → ℚ) (df : DataFrame) (pt : String)
    (line : Option ℚ) : Except String DataFrame :=
  let features_df := df.sortByGameDate
  let fcols := featureCols features_df
  if fcols.isEmpty then .error "No feature columns found"
  else
    let result0 : DataFrame := ⟨fcols⟩
    let rows := features_df.nRows
    let addLineOnly : DataFrame :=
      match line with
      | some l => result0.setConst "line" l rows
      | none => result0
    match findStatColumn result0.colNames pt with
    | some sc =>
        match features_df.getCol? sc with
        | some col =>
            if 0 < rows then
              .ok ((engineeredAdds sq col.vals line).foldl
                    (fun d p => d.setConst p.1 p.2 rows) result0)
            else .ok addLineOnly
        | none => .ok addLineOnly
    | none => .ok addLineOnly

/-! ### `modeling.py`: training and prediction state -/

/-- Outcome of `PropPredictor.train` at the resolution the claims need:
`baseline p` is the short-circuit that leaves `is_trained = False` and
stores `baseline_prob = p`; `proceed` marks the path that continues into
the train/test split, variance filtering, `SelectKBest`, scaling and the
sklearn ensemble fit (external library code, abstracted here). -/
inductive TrainResult where
  | baseline (baseline_prob : ℚ)
  | proceed
deriving DecidableEq

/-- `PropPredictor.train` up to the point where sklearn takes over: the
empty-data guard, the `> 2` distinct-values binarisation, and the
constant-outcome short-circuit that stores `y.mean()`. -/
def PropPredictor.train (X : List (List ℚ)) (y : List ℚ) : Except String TrainResult :=
  if X.length = 0 ∨ y.length = 0 then .error "Training data is empty"
  else
    let y' := if 2 < y.dedup.length then y.map (fun v => if 0 < v then 1 else 0) else y
    if y'.sum = 0 ∨ y'.sum = (y'.length : ℚ) then .ok (.baseline (listMean y'))
    else .ok .proceed

/-- The predictor state `predict_probability` dispatches on: freshly
constructed (`is_trained = False`, no `baseline_prob`), baseline-only
(`is_trained = False`, `baseline_prob` stored), or fitted (`is_trained =
True`; the aligned/filtered/scaled sklearn pipeline is abstracted as a
function from the feature matrix to the raw ensemble probability). -/
inductive PredictorState where
  | untrained
  | baselineOnly (baseline_prob : ℚ)
  | fitted (model : List (List ℚ) → ℚ)

/-- `PropPredictor.predict_probability`: an untrained predictor returns the
stored baseline (or 0.5 when none exists); a fitted one calibrates the raw
ensemble output. -/
def predict_probability (st : PredictorState) (X : List (List ℚ)) : ℚ :=
  match st with
  | .untrained => 1/2
  | .baselineOnly p => p
  | .fitted m => calibrate_probability (m X) none

/-! ### Concrete instances and name tables used by the claims -/

/-- The names of every engineered column that the `len(stats) >= 5` block
of `prepare_features_for_prediction` can assign. -/
def engNames : List String :=
  ["line", "line_vs_recent_5", "line_vs_recent_5_pct", "line_vs_recent_10",
   "line_vs_recent_10_pct", "line_vs_season_avg", "line_vs_season_avg_pct",
   "line_difficulty", "recent_similar_line_count", "trend_5_games", "momentum",
   "volatility", "consistency_score", "recent_vs_season_5", "recent_vs_season_10",
   "rolling_5_x_line", "line_div_rolling_5", "volatility_x_line"]

/-- Every keyword appearing in `prop_to_stat` for the fixed prop-type
enumeration. -/
def allStatKeywords : List String :=
  ["pts", "points", "point", "reb", "rebounds", "rebound", "ast", "assists",
   "assist", "3p", "threes", "three", "3pm", "3p_made", "stl", "steals",
   "steal", "blk", "blocks", "block"]

/-- The fixed prop-type enumeration of the spec's data model. -/
def propTypes : List String :=
  ["Points", "Rebounds", "Assists", "Threes", "Made Threes", "Steals", "Blocks"]

/-- A three-game log with a raw `pts` column (`actual = [10, 12, 8]`), the
concrete instance named in claim C6. -/
def dfC6 : DataFrame := ⟨[⟨"pts", true, [10, 12, 8]⟩]⟩

/-- A log carrying only the precomputed fallback column `target_pts`
(values `[5, 0]`), used to exercise the fallback path of the target
labeler. -/
def dfC6fb : DataFrame := ⟨[⟨"target_pts", true, [5, 0]⟩]⟩

/-- A three-row log with a raw `pts` column and one `feat_` column, used
for the small-log feature-builder claims. -/
def dfC4 : DataFrame :=
  ⟨[⟨"pts", true, [10, 11, 12]⟩, ⟨"feat_roll_pts_5", true, [9, 10, 11]⟩]⟩

/-- A three-row log with a raw `pts` column and one `feat_` column, used
to witness the raw-stat feature-leak claim. -/
def dfC9 : DataFrame :=
  ⟨[⟨"pts", true, [10, 12, 8]⟩, ⟨"feat_roll_pts_5", true, [1, 2, 3]⟩]⟩

/-! ### Supporting lemmas for the calibrator -/

/-- Segment evaluation of the piecewise map: `p < 0.10`. -/
theorem piecewise_map_seg_low {q : ℚ} (h : q < 1/10) :
    piecewise_map q = 10/100 + (q / (10/100)) * (10/100) := by
  unfold piecewise_map
  rw [if_neg (by linarith), if_neg (by linarith), if_pos h]

/-- Segment evaluation of the piecewise map: `0.10 ≤ p ≤ 0.75`. -/
theorem piecewise_map_seg_mid {q : ℚ} (h1 : 1/10 ≤ q) (h2 : q ≤ 3/4) :
    piecewise_map q = 20/100 + ((q - 10/100) / (65/100)) * (40/100) := by
  unfold piecewise_map
  rw [if_neg (by linarith), if_neg (by linarith), if_neg (by linarith)]

/-- Segment evaluation of the piecewise map: `0.75 < p ≤ 0.90`. -/
theorem piecewise_map_seg_high {q : ℚ} (h1 : 3/4 < q) (h2 : q ≤ 9/10) :
    piecewise_map q = 60/100 + ((q - 3/4) / (15/100)) * (5/100) := by
  unfold piecewise_map
  rw [if_neg (by linarith), if_pos h1]

/-- Segment evaluation of the piecewise map: `p > 0.90`. -/
theorem piecewise_map_seg_top {q : ℚ} (h : 9/10 < q) :
    piecewise_map q = 65/100 + ((q - 9/10) / (10/100)) * (10/100) := by
  unfold piecewise_map
  rw [if_pos h]

/-! ### Claim C3 -/

/-- C3: range invariant of the calibrator.  For every probability
`p ∈ [0, 1]`, with or without an implied probability supplied,
`_calibrate_probability` returns a value in the closed interval
`[0.10, 0.75]`. -/
theorem c3_calibrate_range (p : ℚ) (implied : Option ℚ) (h0 : 0 ≤ p) (h1 : p ≤ 1) :
    1/10 ≤ calibrate_probability p implied ∧ calibrate_probability p implied ≤ 3/4 := by
  have key : ∀ x : ℚ, 1/10 ≤ max (10/100) (min (75/100) x) ∧
      max (10/100) (min (75/100) x) ≤ 3/4 := by
    intro x
    constructor
    · calc (1:ℚ)/10 = 10/100 := by norm_num
        _ ≤ max (10/100) (min (75/100) x) := le_max_left _ _
    · apply max_le (by norm_num)
      calc min (75/100) x ≤ 75/100 := min_le_left _ _
        _ ≤ 3/4 := by norm_num
  exact key _

/-- Witness for C3 at `p = 1/2` with no implied probability. -/
theorem c3_calibrate_range_witness :
    (0:ℚ) ≤ 1/2 ∧ (1:ℚ)/2 ≤ 1 ∧
    (1/10 ≤ calibrate_probability (1/2) none ∧ calibrate_probability (1/2) none ≤ 3/4) :=
  ⟨by norm_num, by norm_num, c3_calibrate_range (1/2) none (by norm_num) (by norm_num)⟩

/-! ### Claim C2 -/

/-- C2 counterexample: at raw probability `0.40` with supplied implied
probability `0.99`, the code first clamps the implied probability to
`0.95` and blends with the clamped value (giving `397/650 ≈ 0.611`),
whereas the claim's rule blends with the raw implied probability (giving
`2037/3250 ≈ 0.627`).  The claim, as stated, is therefore false at this
input. -/
theorem c2_counterexample :
    calibrate_probability (4/10) (some (99/100)) ≠
      calibrateClaimC2 (4/10) (some (99/100)) := by
  have hmap : piecewise_map (max 0 (min 1 (4/10))) = 5/13 := by
    have h : (max 0 (min 1 ((4:ℚ)/10))) = 4/10 := by
      rw [min_eq_right (by norm_num), max_eq_right (by norm_num)]
    rw [h, piecewise_map_seg_mid (by norm_num) (by norm_num)]
    norm_num
  have hcode : calibrate_probability (4/10) (some (99/100)) = 397/650 := by
    unfold calibrate_probability
    simp only [hmap]
    norm_num [min_def, max_def]
  have hclaim : calibrateClaimC2 (4/10) (some (99/100)) = 2037/3250 := by
    unfold calibrateClaimC2
    simp only [hmap]
    rw [if_pos (by rw [abs_sub_comm, abs_of_nonneg (by norm_num)]; norm_num)]
    norm_num [min_def, max_def]
  rw [hcode, hclaim]
  norm_num

/-- C2 (amended): the piecewise map is exactly as claimed, but a supplied
implied probability is first clamped to `[0.05, 0.95]`; both the
"differs by more than 0.20" test and the 60/40 blend then use the clamped
implied probability, and the final value is clamped to `[0.10, 0.75]`. -/
theorem c2_amended (p : ℚ) (implied : Option ℚ) :
    calibrate_probability p implied = calibrateAmendedC2 p implied := by
  cases implied with
  | none => rfl
  | some q0 =>
      unfold calibrate_probability calibrateAmendedC2
      simp only
      congr 2
      set m := piecewise_map (max 0 (min 1 p)) with hm
      set q := max (5/100) (min (95/100) q0) with hq
      by_cases h1 : q + 20/100 < m
      · rw [if_pos h1, if_pos (by rw [lt_abs]; left; linarith)]
      · rw [if_neg h1]
        by_cases h2 : m < q - 20/100
        · rw [if_pos h2, if_pos (by rw [lt_abs]; right; linarith)]
        · rw [if_neg h2, if_neg]
          rw [lt_abs]
          push_neg
          constructor <;> linarith

/-! ### Claim C8 -/

/-- C8: within each of the four piecewise segments, the calibrator with no
implied probability supplied is monotone non-decreasing in its raw
probability argument. -/
theorem c8_calibrate_segment_mono (p1 p2 : ℚ) (h12 : p1 ≤ p2)
    (hseg : (p1 < 1/10 ∧ p2 < 1/10) ∨ (1/10 ≤ p1 ∧ p2 ≤ 3/4) ∨
            (3/4 < p1 ∧ p2 ≤ 9/10) ∨ (9/10 < p1)) :
    calibrate_probability p1 none ≤ calibrate_probability p2 none := by
  have key : piecewise_map (max 0 (min 1 p1)) ≤ piecewise_map (max 0 (min 1 p2)) := by
    set q1 := max 0 (min 1 p1) with hq1
    set q2 := max 0 (min 1 p2) with hq2
    have hq12 : q1 ≤ q2 := max_le_max le_rfl (min_le_min le_rfl h12)
    rcases hseg with ⟨ha, hb⟩ | ⟨ha, hb⟩ | ⟨ha, hb⟩ | ha
    · have h1 : q1 < 1/10 := by
        apply max_lt (by norm_num) (lt_of_le_of_lt (min_le_right _ _) ha)
      have h2 : q2 < 1/10 := by
        apply max_lt (by norm_num) (lt_of_le_of_lt (min_le_right _ _) hb)
      rw [piecewise_map_seg_low h1, piecewise_map_seg_low h2]
      ring_nf
      linarith
    · have e1 : q1 = p1 := by
        rw [hq1, min_eq_right (by linarith), max_eq_right (by linarith)]
      have e2 : q2 = p2 := by
        rw [hq2, min_eq_right (by linarith), max_eq_right (by linarith)]
      rw [e1, e2, piecewise_map_seg_mid ha (le_trans h12 hb),
        piecewise_map_seg_mid (le_trans ha h12) hb]
      ring_nf
      linarith
    · have e1 : q1 = p1 := by
        rw [hq1, min_eq_right (by linarith), max_eq_right (by linarith)]
      have e2 : q2 = p2 := by
        rw [hq2, min_eq_right (by linarith), max_eq_right (by linarith)]
      rw [e1, e2, piecewise_map_seg_high ha (le_trans h12 hb),
        piecewise_map_seg_high (lt_of_lt_of_le ha h12) hb]
      ring_nf
      linarith
    · have h1 : 9/10 < q1 := by
        apply lt_max_of_lt_right
        exact lt_min (by norm_num) ha
      have h2 : 9/10 < q2 := lt_of_lt_of_le h1 hq12
      rw [piecewise_map_seg_top h1, piecewise_map_seg_top h2]
      ring_nf
      linarith
  show max (10/100) (min (75/100) (piecewise_map (max 0 (min 1 p1)))) ≤
       max (10/100) (min (75/100) (piecewise_map (max 0 (min 1 p2))))
  exact max_le_max le_rfl (min_le_min le_rfl key)

/-- Witness for C8 at `p1 = 0.20 ≤ p2 = 0.30`, both in the middle
segment. -/
theorem c8_calibrate_segment_mono_witness :
    ((2:ℚ)/10 ≤ 3/10 ∧ (1:ℚ)/10 ≤ 2/10 ∧ (3:ℚ)/10 ≤ 3/4) ∧
    calibrate_probability (2/10) none ≤ calibrate_probability (3/10) none :=
  ⟨⟨by norm_num, by norm_num, by norm_num⟩,
   c8_calibrate_segment_mono (2/10) (3/10) (by norm_num)
     (Or.inr (Or.inl ⟨by norm_num, by norm_num⟩))⟩

/-! ### Claim C7 -/

/-- C7: for every probability `p ∈ [0, 1]` and decimal odds `d > 1`, with
implied probability `q` defaulting to `1/d` when absent: if
`|p − q| ≤ 0.15` the expected value is exactly the base formula
`p·(d−1) − (1−p)` (so no market adjustment is applied when `q = p`); if
`|p − q| > 0.15` it is the blend `(1−w)·baseEV + w·marketEV` with
`marketEV = q·(d−1) − (1−q)` and `w = min(0.40, (|p−q| − 0.15)·2)`. -/
theorem c7_expected_value (p d : ℚ) (implied : Option ℚ)
    (hp0 : 0 ≤ p) (hp1 : p ≤ 1) (hd : 1 < d) :
    (|p - implied.getD (1/d)| ≤ 15/100 →
       calculate_expected_value p d implied = p * (d - 1) - (1 - p)) ∧
    (15/100 < |p - implied.getD (1/d)| →
       calculate_expected_value p d implied =
         (1 - min (40/100) ((|p - implied.getD (1/d)| - 15/100) * 2)) *
             (p * (d - 1) - (1 - p)) +
           min (40/100) ((|p - implied.getD (1/d)| - 15/100) * 2) *
             (implied.getD (1/d) * (d - 1) - (1 - implied.getD (1/d)))) := by
  constructor
  · intro h
    simp only [calculate_expected_value]
    rw [if_neg (not_lt.mpr h)]
    ring
  · intro h
    simp only [calculate_expected_value]
    rw [if_pos h]
    ring

/-- Witness for C7 at `p = 1/2`, `d = 2`, implied probability supplied and
equal to `p` (model and market agree, so the base formula applies). -/
theorem c7_expected_value_witness :
    (0:ℚ) ≤ 1/2 ∧ (1:ℚ)/2 ≤ 1 ∧ (1:ℚ) < 2 ∧
    calculate_expected_value (1/2) 2 (some (1/2)) = (1/2) * (2 - 1) - (1 - 1/2) :=
  ⟨by norm_num, by norm_num, by norm_num,
   (c7_expected_value (1/2) 2 (some (1/2)) (by norm_num) (by norm_num) (by norm_num)).1
     (by simp only [Option.getD_some]; norm_num)⟩

/-! ### Claim C10 -/

/-- C10: `american_to_decimal` is defined on every nonzero numeric input
(positive `o` yields `o/100 + 1 > 1`, negative `o` yields
`100/|o| + 1 > 1`), returns the NaN signal on the string sentinels
`'OFF'` and `''`, but on the numeric input `0` it takes the negative
branch and evaluates `100 / abs(0)`, raising `ZeroDivisionError` instead
of returning NaN. -/
theorem c10_american_to_decimal (o : ℚ) :
    (0 < o → american_to_decimal (.num o) = .val (o / 100 + 1) ∧ 1 < o / 100 + 1) ∧
    (o < 0 → american_to_decimal (.num o) = .val (100 / |o| + 1) ∧ 1 < 100 / |o| + 1) ∧
    american_to_decimal (.str "OFF") = .nan ∧
    american_to_decimal (.str "") = .nan ∧
    american_to_decimal (.num 0) = .divByZero := by
  refine ⟨?_, ?_, by rfl, by rfl, ?_⟩
  · intro h
    refine ⟨?_, ?_⟩
    · simp only [american_to_decimal, americanNum, if_pos h]
    · have hq : 0 < o / 100 := by positivity
      linarith
  · intro h
    refine ⟨?_, ?_⟩
    · simp only [american_to_decimal, americanNum]
      rw [if_neg (by linarith), if_neg (by linarith)]
    · have h1 : 0 < |o| := abs_pos.mpr (ne_of_lt h)
      have hq : 0 < 100 / |o| := by positivity
      linarith
  · simp only [american_to_decimal, americanNum]
    norm_num

/-- Witness for C10 at the spec's example odds `+150` and `-110`. -/
theorem c10_american_to_decimal_witness :
    ((0:ℚ) < 150 ∧
      (american_to_decimal (.num 150) = .val ((150:ℚ) / 100 + 1) ∧
       (1:ℚ) < (150:ℚ) / 100 + 1)) ∧
    ((-110:ℚ) < 0 ∧
      (american_to_decimal (.num (-110)) = .val (100 / |(-110:ℚ)| + 1) ∧
       (1:ℚ) < 100 / |(-110:ℚ)| + 1)) :=
  ⟨⟨by norm_num, (c10_american_to_decimal 150).1 (by norm_num)⟩,
   ⟨by norm_num, (c10_american_to_decimal (-110)).2.1 (by norm_num)⟩⟩

/-! ### Claim C5 -/

/-- C5: for every non-empty feature matrix `X` and non-empty constant
binary target series `y` (all labels equal to `c ∈ {0, 1}`), `train`
short-circuits into the BaselineOnly state — it never reaches the split /
filtering / scaling / ensemble-fit path — storing `mean(y)` (which equals
`c`) as the fallback probability, and a subsequent `predict_probability`
on any input returns exactly that mean. -/
theorem c5_constant_labels_baseline (X : List (List ℚ)) (y : List ℚ) (c : ℚ)
    (hX : X ≠ []) (hy : y ≠ []) (hconst : ∀ v ∈ y, v = c) (hc : c = 0 ∨ c = 1) :
    PropPredictor.train X y = .ok (.baseline (listMean y)) ∧
    listMean y = c ∧
    ∀ Xp, predict_probability (.baselineOnly (listMean y)) Xp = listMean y := by
  have hlen : y.length ≠ 0 := fun h => hy (List.length_eq_zero.mp h)
  have hlenQ : (y.length : ℚ) ≠ 0 := Nat.cast_ne_zero.mpr hlen
  have hrep : y = List.replicate y.length c := List.eq_replicate_of_mem hconst
  have hsum : y.sum = (y.length : ℚ) * c := by
    conv_lhs => rw [hrep]
    rw [List.sum_replicate, nsmul_eq_mul]
  have hmean : listMean y = c := by
    unfold listMean
    rw [hsum, mul_comm, mul_div_assoc, div_self hlenQ, mul_one]
  refine ⟨?_, hmean, fun Xp => rfl⟩
  unfold PropPredictor.train
  rw [if_neg (by
    push_neg
    exact ⟨fun h => hX (List.length_eq_zero.mp h), hlen⟩)]
  have hdedup : ¬ 2 < y.dedup.length := by
    have hsub : ∀ v ∈ y.dedup, v = c := fun v hv => hconst v (List.mem_dedup.mp hv)
    have hrepd : y.dedup = List.replicate y.dedup.length c := List.eq_replicate_of_mem hsub
    have hnd : y.dedup.Nodup := List.nodup_dedup y
    rw [hrepd] at hnd
    have := List.nodup_replicate.mp hnd
    omega
  have hcond : y.sum = 0 ∨ y.sum = (y.length : ℚ) := by
    rcases hc with rfl | rfl
    · left; rw [hsum, mul_zero]
    · right; rw [hsum, mul_one]
  rw [if_neg hdedup, if_pos hcond]

/-- Witness for C5: a constant-1 label series of length 20 (the spec's
testable property) with a one-row feature matrix. -/
theorem c5_constant_labels_baseline_witness :
    ([[(0:ℚ)]] ≠ ([] : List (List ℚ))) ∧ (List.replicate 20 (1:ℚ) ≠ []) ∧
    PropPredictor.train [[(0:ℚ)]] (List.replicate 20 (1:ℚ)) =
      .ok (.baseline (listMean (List.replicate 20 (1:ℚ)))) ∧
    listMean (List.replicate 20 (1:ℚ)) = 1 :=
  ⟨by simp, by simp,
   (c5_constant_labels_baseline [[(0:ℚ)]] (List.replicate 20 (1:ℚ)) 1 (by simp) (by simp)
     (fun v hv => List.eq_of_mem_replicate hv) (Or.inr rfl)).1,
   (c5_constant_labels_baseline [[(0:ℚ)]] (List.replicate 20 (1:ℚ)) 1 (by simp) (by simp)
     (fun v hv => List.eq_of_mem_replicate hv) (Or.inr rfl)).2.1⟩

/-! ### Claim C6 -/

/-- C6 (amended): when a raw stat column is located, labels are `1` iff
(side = Over and actual > line) or (side = Under and actual < line), `0`
otherwise (ties label `0`), and a side that is neither Over nor Under
raises the labeling error; when no raw stat column is located, the
labeling error is raised iff no fallback target column can be located
either — if a fallback column exists, proxy labels (`value > 0`) are
returned without any side check.  In particular `actual = [10, 12, 8]`,
`line = 10`, side Over yields `[0, 1, 0]`. -/
theorem c6_target_labeler (df : DataFrame) (pt : String) (line : ℚ) (sc : String)
    (col : Column)
    (hsc : findStatColumn df.colNames pt = some sc)
    (hcol : df.getCol? sc = some col) :
    (create_target_variable df pt line "Over" =
       .ok (col.vals.map fun v => if line < v then 1 else 0)) ∧
    (create_target_variable df pt line "Under" =
       .ok (col.vals.map fun v => if v < line then 1 else 0)) ∧
    (∀ side, side ≠ "Over" → side ≠ "Under" →
       create_target_variable df pt line side = .error "over_under must be Over or Under") ∧
    (∀ df' : DataFrame, ∀ pt' : String, ∀ line' : ℚ, ∀ side' : String,
       findStatColumn df'.colNames pt' = none →
       (∀ tc, prop_to_target pt' = some tc → df'.getCol? tc = none) →
       create_target_variable df' pt' line' side' =
         .error "Could not find stat or target column") ∧
    (∀ df' : DataFrame, ∀ pt' : String, ∀ line' : ℚ, ∀ side' : String,
       ∀ tc : String, ∀ colt : Column,
       findStatColumn df'.colNames pt' = none →
       prop_to_target pt' = some tc →
       df'.getCol? tc = some colt →
       create_target_variable df' pt' line' side' =
         .ok (colt.vals.map fun v => if 0 < v then 1 else 0)) ∧
    create_target_variable dfC6 "Points" 10 "Over" = .ok [0, 1, 0] := by
  refine ⟨?_, ?_, ?_, ?_, ?_, ?_⟩
  · simp [create_target_variable, hsc, hcol]
  · simp [create_target_variable, hsc, hcol]
  · intro side h1 h2
    simp only [create_target_variable, hsc, hcol]
    rw [if_neg h1, if_neg h2]
  · intro df' pt' line' side' h1 h2
    cases htc : prop_to_target pt' with
    | none => simp only [create_target_variable, h1, ctvFallback, htc]
    | some tc => simp only [create_target_variable, h1, ctvFallback, htc, h2 tc htc]
  · intro df' pt' line' side' tc colt h1 h2 h3
    simp only [create_target_variable, h1, ctvFallback, h2, h3]
  · rfl

/-- Witness for C6 at the claim's own concrete log. -/
theorem c6_target_labeler_witness :
    findStatColumn dfC6.colNames "Points" = some "pts" ∧
    create_target_variable dfC6 "Points" 10 "Over" = .ok [0, 1, 0] :=
  ⟨by rfl,
   (c6_target_labeler dfC6 "Points" 10 "pts" ⟨"pts", true, [10, 12, 8]⟩
      (by rfl) (by rfl)).2.2.2.2.2⟩

/-- C6 counterexample: on a log whose only column is the fallback
`target_pts` (so no raw stat column is located) and the invalid side
`"Banana"`, the labeler does not raise — it returns the proxy labels
`[1, 0]` — although the claim's "raises exactly when side is neither
Over nor Under, or no column can be located" requires an error here. -/
theorem c6_counterexample :
    ("Banana" ≠ "Over" ∧ "Banana" ≠ "Under") ∧
    create_target_variable dfC6fb "Points" 10 "Banana" = .ok [1, 0] :=
  ⟨⟨by decide, by decide⟩, by rfl⟩

/-! ### Supporting lemmas for the feature builder -/

/-- Sorting the rows does not change the column names. -/
theorem sortByGameDate_colNames (df : DataFrame) :
    df.sortByGameDate.colNames = df.colNames := by
  unfold DataFrame.sortByGameDate
  cases df.getCol? "game_date" with
  | none => rfl
  | some gd =>
      unfold DataFrame.colNames
      rw [List.map_map]
      rfl

/-- Inserting one element grows the list by one. -/
theorem length_insertAsc (a : ℚ × ℕ) (l : List (ℚ × ℕ)) :
    (insertAsc a l).length = l.length + 1 := by
  induction l with
  | nil => rfl
  | cons b bs ih =>
      unfold insertAsc
      split_ifs
      · simpa using ih
      · simp

/-- Folding insertions grows the accumulator by the folded length. -/
theorem length_foldl_insertAsc (l : List (ℚ × ℕ)) (acc : List (ℚ × ℕ)) :
    (l.foldl (fun acc a => insertAsc a acc) acc).length = acc.length + l.length := by
  induction l generalizing acc with
  | nil => simp
  | cons b bs ih =>
      rw [List.foldl_cons, ih, length_insertAsc, List.length_cons]
      omega

/-- The sorting permutation has one index per row. -/
theorem length_sortIdx (keys : List ℚ) : (sortIdx keys).length = keys.length := by
  unfold sortIdx
  rw [List.length_map, length_foldl_insertAsc, List.length_map, List.enum_length]
  simp

/-- On a wellformed dataframe, every column of the sorted dataframe still
has `df.nRows` rows. -/
theorem sortByGameDate_cols_length (df : DataFrame) (wf : df.Wellformed) :
    ∀ c ∈ df.sortByGameDate.cols, c.vals.length = df.nRows := by
  unfold DataFrame.sortByGameDate
  cases hgd : df.getCol? "game_date" with
  | none => exact wf
  | some gd =>
      intro c hc
      simp only [List.mem_map] at hc
      obtain ⟨c0, hc0, rfl⟩ := hc
      simp only [List.length_map, length_sortIdx]
      exact wf gd (List.mem_of_find?_eq_some hgd)

/-- On a wellformed dataframe, sorting preserves the row count. -/
theorem sortByGameDate_nRows (df : DataFrame) (wf : df.Wellformed) :
    df.sortByGameDate.nRows = df.nRows := by
  cases hcols : df.cols with
  | nil =>
      have hgd : df.getCol? "game_date" = none := by
        unfold DataFrame.getCol?
        rw [hcols]
        rfl
      unfold DataFrame.sortByGameDate
      rw [hgd]
  | cons c0 cs =>
      unfold DataFrame.sortByGameDate
      cases hgd : df.getCol? "game_date" with
      | none => rfl
      | some gd =>
          have e1 : gd.vals.length = df.nRows :=
            wf gd (List.mem_of_find?_eq_some hgd)
          have e2 : c0.vals.length = df.nRows :=
            wf c0 (by rw [hcols]; exact List.mem_cons_self _ _)
          unfold DataFrame.nRows
          rw [hcols]
          simp only [List.map_cons, List.head?_cons, Option.map_some', Option.getD_some,
            List.length_map, length_sortIdx]
          rw [e1, e2]

/-- `setConst` either keeps the column names (overwrite) or appends the new
name at the end. -/
theorem setConst_colNames (d : DataFrame) (n : String) (v : ℚ) (rows : ℕ) :
    (d.setConst n v rows).colNames =
      if d.colNames.contains n then d.colNames else d.colNames ++ [n] := by
  unfold DataFrame.setConst DataFrame.colNames
  split_ifs with hc
  · rw [List.map_map]
    apply List.map_congr_left
    intro c _
    by_cases h : c.name = n
    · simp [h]
    · simp [h]
  · simp

/-- Looking up a column other than the one assigned is unaffected by
`setConst` (overwrite case, list form). -/
theorem find?_name_map_update (cols : List Column) (n : String) (v : ℚ) (rows : ℕ)
    (sc : String) (h : n ≠ sc) :
    (cols.map fun c =>
        if c.name = n then Column.mk c.name true (List.replicate rows v) else c).find?
      (fun c => c.name = sc) = cols.find? (fun c => c.name = sc) := by
  induction cols with
  | nil => rfl
  | cons c cs ih =>
      rw [List.map_cons]
      by_cases hcs : c.name = sc
      · have hcn : ¬ (c.name = n) := by rw [hcs]; exact fun hh => h hh.symm
        rw [if_neg hcn, List.find?_cons_of_pos _ (by simpa using hcs),
          List.find?_cons_of_pos _ (by simpa using hcs)]
      · by_cases hcn : c.name = n
        · rw [if_pos hcn]
          rw [List.find?_cons_of_neg _ (by simpa using hcs),
            List.find?_cons_of_neg _ (by simpa using hcs)]
          exact ih
        · rw [if_neg hcn, List.find?_cons_of_neg _ (by simpa using hcs),
            List.find?_cons_of_neg _ (by simpa using hcs)]
          exact ih

/-- `find?` ignores a non-matching element appended at the end. -/
theorem find?_append_single_none {α : Type} (p : α → Bool) (l : List α) (a : α)
    (ha : p a = false) : (l ++ [a]).find? p = l.find? p := by
  induction l with
  | nil =>
      rw [List.nil_append, List.find?_cons_of_neg _ (by simp [ha])]
  | cons b bs ih =>
      by_cases hb : p b = true
      · rw [List.cons_append, List.find?_cons_of_pos _ hb, List.find?_cons_of_pos _ hb]
      · rw [List.cons_append, List.find?_cons_of_neg _ hb,
          List.find?_cons_of_neg _ hb, ih]

/-- Assigning a column named `n ≠ sc` never disturbs the lookup of `sc`. -/
theorem getCol?_setConst_ne (d : DataFrame) (n : String) (v : ℚ) (rows : ℕ)
    (sc : String) (h : n ≠ sc) :
    (d.setConst n v rows).getCol? sc = d.getCol? sc := by
  unfold DataFrame.setConst DataFrame.getCol?
  split_ifs with hc
  · exact find?_name_map_update d.cols n v rows sc h
  · exact find?_append_single_none _ d.cols _ (by simpa using h)

/-- A fold of scalar-column assignments whose names all differ from `sc`
never disturbs the lookup of `sc`. -/
theorem getCol?_foldl_setConst (adds : List (String × ℚ)) (rows : ℕ) (sc : String)
    (h : ∀ p ∈ adds, p.1 ≠ sc) :
    ∀ d : DataFrame,
      (adds.foldl (fun d p => d.setConst p.1 p.2 rows) d).getCol? sc = d.getCol? sc := by
  induction adds with
  | nil => intro d; rfl
  | cons a as ih =>
      intro d
      rw [List.foldl_cons, ih (fun p hp => h p (List.mem_cons_of_mem _ hp)),
        getCol?_setConst_ne _ _ _ _ _ (h a (List.mem_cons_self _ _))]

/-- Filtering preserves the first match of `find?` when the found element
satisfies the filter. -/
theorem find?_filter_of_pred {α : Type} (p q : α → Bool) (l : List α) (a : α)
    (h : l.find? q = some a) (hp : p a = true) :
    (l.filter p).find? q = some a := by
  induction l with
  | nil => cases h
  | cons b bs ih =>
      by_cases hqb : q b = true
      · rw [List.find?_cons_of_pos _ hqb] at h
        obtain rfl : b = a := Option.some.inj h
        rw [List.filter_cons, if_pos hp, List.find?_cons_of_pos _ hqb]
      · rw [List.find?_cons_of_neg _ hqb] at h
        rw [List.filter_cons]
        split_ifs with hpb
        · rw [List.find?_cons_of_neg _ hqb]
          exact ih h
        · exact ih h

/-- Unpacking a successful stat-column search: the found name is one of the
searched names, and some keyword of the prop type matches it. -/
theorem findStatColumn_spec {names : List String} {pt sc : String}
    (h : findStatColumn names pt = some sc) :
    sc ∈ names ∧ ∃ kw ∈ prop_to_stat pt, kwMatches kw sc = true := by
  unfold findStatColumn at h
  obtain ⟨kw, hkw, hhd⟩ := List.exists_of_findSome?_eq_some h
  obtain ⟨ys, hys⟩ := List.head?_eq_some_iff.mp hhd
  have hmem : sc ∈ names.filter (kwMatches kw) := by
    rw [hys]
    exact List.mem_cons_self _ _
  have hf := List.mem_filter.mp hmem
  exact ⟨hf.1, kw, hkw, hf.2⟩

/-- A conditional add, when present, carries its declared name. -/
theorem optAdd_name {c : Bool} {n : String} {v : ℚ} {p : String × ℚ}
    (h : optAdd c n v = some p) : p.1 = n := by
  unfold optAdd at h
  split_ifs at h
  obtain rfl := Option.some.inj h
  rfl

/-- Every column assigned by the engineered-features block bears one of the
names in `engNames`. -/
theorem engineeredAdds_names (sq : ℚ → ℚ) (stats : List ℚ) (line : Option ℚ) :
    ∀ p ∈ engineeredAdds sq stats line, p.1 ∈ engNames := by
  intro p hp
  cases line with
  | none =>
      unfold engineeredAdds at hp
      split_ifs at hp with h5
      · cases hp
      · rw [List.mem_filterMap] at hp
        obtain ⟨o, ho, hoe⟩ := hp
        simp only [id_eq] at hoe
        simp only [List.nil_append, List.mem_append, List.mem_cons,
          List.not_mem_nil, or_false, or_assoc] at ho
        rcases ho with rfl | rfl | rfl | rfl | rfl | rfl
        · obtain rfl := Option.some.inj hoe; simp [engNames]
        · rw [optAdd_name hoe]; decide
        · rw [optAdd_name hoe]; decide
        · obtain rfl := Option.some.inj hoe; simp [engNames]
        · rw [optAdd_name hoe]; decide
        · rw [optAdd_name hoe]; decide
  | some l =>
      unfold engineeredAdds at hp
      split_ifs at hp with h5
      · cases hp
      · rw [List.mem_filterMap] at hp
        obtain ⟨o, ho, hoe⟩ := hp
        simp only [id_eq] at hoe
        simp only [List.cons_append, List.nil_append, List.mem_append, List.mem_cons,
          List.not_mem_nil, or_false, or_assoc] at ho
        rcases ho with rfl | rfl | rfl | rfl | rfl | rfl | rfl | rfl | rfl | rfl | rfl |
          rfl | rfl | rfl | rfl | rfl | rfl | rfl
        · obtain rfl := Option.some.inj hoe; simp [engNames]
        · obtain rfl := Option.some.inj hoe; simp [engNames]
        · obtain rfl := Option.some.inj hoe; simp [engNames]
        · rw [optAdd_name hoe]; decide
        · rw [optAdd_name hoe]; decide
        · obtain rfl := Option.some.inj hoe; simp [engNames]
        · obtain rfl := Option.some.inj hoe; simp [engNames]
        · rw [optAdd_name hoe]; decide
        · obtain rfl := Option.some.inj hoe; simp [engNames]
        · obtain rfl := Option.some.inj hoe; simp [engNames]
        · rw [optAdd_name hoe]; decide
        · rw [optAdd_name hoe]; decide
        · obtain rfl := Option.some.inj hoe; simp [engNames]
        · rw [optAdd_name hoe]; decide
        · rw [optAdd_name hoe]; decide
        · obtain rfl := Option.some.inj hoe; simp [engNames]
        · obtain rfl := Option.some.inj hoe; simp [engNames]
        · rw [optAdd_name hoe]; decide

/-- No stat keyword of the fixed prop-type enumeration matches any
engineered-column name (so the engineered assignments can never overwrite
the located raw stat column). -/
theorem keyword_grid :
    ∀ kw ∈ allStatKeywords, ∀ n ∈ engNames, kwMatches kw n = false := by decide

/-- The keyword table of every enumerated prop type is contained in
`allStatKeywords`. -/
theorem prop_keywords_sub :
    ∀ pt ∈ propTypes, ∀ kw ∈ prop_to_stat pt, kw ∈ allStatKeywords := by decide

/-! ### Claim C4 -/

/-- C4 (amended): for every wellformed historical log with fewer than five
rows (any prop type, any finite line), the feature builder's output matrix
consists of exactly the selected feature columns — the `feat_`-prefixed
columns plus every other numeric non-excluded column, including any raw
stat column — with the `line` column appended only when no raw stat column
is located among them or the log has zero rows; no trend, momentum, or
volatility columns are added. -/
theorem c4_small_log_columns (sq : ℚ → ℚ) (df : DataFrame) (pt : String) (l : ℚ)
    (wf : df.Wellformed) (h5 : df.nRows < 5)
    (hne : featureCols df.sortByGameDate ≠ []) :
    ∃ out, prepare_features_for_prediction sq df pt (some l) = .ok out ∧
      out.colNames =
        if (findStatColumn (DataFrame.mk (featureCols df.sortByGameDate)).colNames pt).isSome
            ∧ 0 < df.nRows then
          (DataFrame.mk (featureCols df.sortByGameDate)).colNames
        else if (DataFrame.mk (featureCols df.sortByGameDate)).colNames.contains "line" then
          (DataFrame.mk (featureCols df.sortByGameDate)).colNames
        else (DataFrame.mk (featureCols df.sortByGameDate)).colNames ++ ["line"] := by
  have hrows : df.sortByGameDate.nRows = df.nRows := sortByGameDate_nRows df wf
  have hie : ¬ (featureCols df.sortByGameDate).isEmpty = true := by
    simpa using hne
  cases hstat : findStatColumn (DataFrame.mk (featureCols df.sortByGameDate)).colNames pt with
  | none =>
      simp only [prepare_features_for_prediction, hrows, hstat]
      rw [if_neg hie]
      refine ⟨_, rfl, ?_⟩
      rw [setConst_colNames]
      conv_rhs => rw [if_neg (by simp)]
  | some sc =>
      obtain ⟨hmem, -⟩ := findStatColumn_spec hstat
      cases hget : df.sortByGameDate.getCol? sc with
      | none =>
          exfalso
          obtain ⟨c, hcf, hcname⟩ := List.mem_map.mp hmem
          have hcc : c ∈ df.sortByGameDate.cols := List.mem_of_mem_filter hcf
          have := List.find?_eq_none.mp hget c hcc
          simp [hcname] at this
      | some col =>
          by_cases hr : 0 < df.nRows
          · have hlen5 : col.vals.length < 5 := by
              have hcc : col ∈ df.sortByGameDate.cols :=
                List.mem_of_find?_eq_some hget
              rw [sortByGameDate_cols_length df wf col hcc]
              exact h5
            have hadds : engineeredAdds sq col.vals (some l) = [] := by
              unfold engineeredAdds
              rw [if_pos hlen5]
            simp only [prepare_features_for_prediction, hrows, hstat, hget, hadds,
              List.foldl_nil]
            rw [if_neg hie, if_pos hr]
            refine ⟨_, rfl, ?_⟩
            rw [if_pos ⟨rfl, hr⟩]
          · simp only [prepare_features_for_prediction, hrows, hstat, hget]
            rw [if_neg hie, if_neg hr]
            refine ⟨_, rfl, ?_⟩
            rw [setConst_colNames]
            conv_rhs => rw [if_neg (by simp [hr])]

/-- C4 counterexample: a three-row log with a raw `pts` column and one
`feat_` column.  The builder's output keeps the non-`feat_` numeric column
`pts` and adds no `line` column at all, contradicting the claim's "exactly
the line column plus the original feat_-prefixed columns". -/
theorem c4_counterexample :
    prepare_features_for_prediction (fun _ => 0) dfC4 "Points" (some 10) = .ok dfC4 ∧
    "line" ∉ dfC4.colNames ∧ "pts" ∈ dfC4.colNames ∧ "pts".startsWith "feat_" = false :=
  ⟨by with_unfolding_all rfl, by decide, by decide, by decide⟩

/-- Witness for the amended C4 on the same three-row log. -/
theorem c4_small_log_columns_witness :
    dfC4.Wellformed ∧ dfC4.nRows < 5 ∧
    (∃ out, prepare_features_for_prediction (fun _ => 0) dfC4 "Points" (some 10) = .ok out ∧
      out.colNames =
        if (findStatColumn (DataFrame.mk (featureCols dfC4.sortByGameDate)).colNames "Points").isSome
            ∧ 0 < dfC4.nRows then
          (DataFrame.mk (featureCols dfC4.sortByGameDate)).colNames
        else if (DataFrame.mk (featureCols dfC4.sortByGameDate)).colNames.contains "line" then
          (DataFrame.mk (featureCols dfC4.sortByGameDate)).colNames
        else (DataFrame.mk (featureCols dfC4.sortByGameDate)).colNames ++ ["line"]) :=
  ⟨by unfold DataFrame.Wellformed; decide, by decide,
   c4_small_log_columns (fun _ => 0) dfC4 "Points" 10
     (by unfold DataFrame.Wellformed; decide) (by decide) (by with_unfolding_all decide)⟩

/-! ### Claim C9 -/

/-- C9: whenever the raw target-statistic column (e.g. `pts` for a Points
prop) is located by the keyword search and is a numeric, non-excluded
column of the (date-sorted) log, `prepare_features_for_prediction`
includes that raw per-game column itself, unchanged, in the output feature
matrix — the very same per-row values whose strict comparison with the
line defines the training labels in `create_target_variable`. -/
theorem c9_raw_stat_feature_leak (sq : ℚ → ℚ) (df : DataFrame) (pt : String)
    (l : ℚ) (sc : String) (col : Column)
    (hpt : pt ∈ propTypes) (wf : df.Wellformed) (hr : 0 < df.nRows)
    (hfull : findStatColumn df.sortByGameDate.colNames pt = some sc)
    (hsel : findStatColumn (DataFrame.mk (featureCols df.sortByGameDate)).colNames pt = some sc)
    (hcol : df.sortByGameDate.getCol? sc = some col)
    (hnum : col.numeric = true) (hexcl : exclude_cols.contains sc = false) :
    (∃ out, prepare_features_for_prediction sq df pt (some l) = .ok out ∧
       out.getCol? sc = some col) ∧
    create_target_variable df.sortByGameDate pt l "Over" =
      .ok (col.vals.map fun v => if l < v then 1 else 0) ∧
    create_target_variable df.sortByGameDate pt l "Under" =
      .ok (col.vals.map fun v => if v < l then 1 else 0) := by
  have hrows : df.sortByGameDate.nRows = df.nRows := sortByGameDate_nRows df wf
  have hcol' : df.sortByGameDate.cols.find? (fun c => c.name = sc) = some col := hcol
  have hname : col.name = sc := by
    have := List.find?_some hcol'
    simpa using this
  have hfeat : isFeatureCol col = true := by
    unfold isFeatureCol
    rw [hname, hexcl, hnum]
    simp
  have hmemcols : col ∈ df.sortByGameDate.cols := List.mem_of_find?_eq_some hcol'
  have hmemf : col ∈ featureCols df.sortByGameDate := by
    unfold featureCols
    exact List.mem_filter.mpr ⟨hmemcols, hfeat⟩
  have hie : ¬ (featureCols df.sortByGameDate).isEmpty = true := by
    simpa using List.ne_nil_of_mem hmemf
  obtain ⟨-, kw, hkw, hmatch⟩ := findStatColumn_spec hsel
  have hscne : ∀ q ∈ engineeredAdds sq col.vals (some l), q.1 ≠ sc := by
    intro q hq hqe
    have h1 := engineeredAdds_names sq col.vals (some l) q hq
    rw [hqe] at h1
    have h2 := keyword_grid kw (prop_keywords_sub pt hpt kw hkw) sc h1
    rw [hmatch] at h2
    cases h2
  refine ⟨?_, ?_, ?_⟩
  · simp only [prepare_features_for_prediction, hrows, hsel, hcol]
    rw [if_neg hie, if_pos hr]
    refine ⟨_, rfl, ?_⟩
    rw [getCol?_foldl_setConst _ _ _ hscne]
    show (featureCols df.sortByGameDate).find? (fun c => c.name = sc) = some col
    unfold featureCols
    exact find?_filter_of_pred isFeatureCol _ _ _ hcol' hfeat
  · simp [create_target_variable, hfull, hcol]
  · simp [create_target_variable, hfull, hcol]

/-- Witness for C9 on a concrete three-game log: the raw `pts` column
`[10, 12, 8]` appears unchanged in the feature matrix, and the labels at
line 10 compare exactly those values. -/
theorem c9_raw_stat_feature_leak_witness :
    (∃ out, prepare_features_for_prediction (fun _ => 0) dfC9 "Points" (some 10) = .ok out ∧
       out.getCol? "pts" = some ⟨"pts", true, [10, 12, 8]⟩) ∧
    create_target_variable dfC9.sortByGameDate "Points" 10 "Over" =
      .ok (([10, 12, 8] : List ℚ).map fun v => if (10:ℚ) < v then 1 else 0) ∧
    create_target_variable dfC9.sortByGameDate "Points" 10 "Under" =
      .ok (([10, 12, 8] : List ℚ).map fun v => if v < (10:ℚ) then 1 else 0) :=
  c9_raw_stat_feature_leak (fun _ => 0) dfC9 "Points" 10 "pts" ⟨"pts", true, [10, 12, 8]⟩
    (by decide) (by unfold DataFrame.Wellformed; decide) (by decide)
    (by rfl) (by rfl) (by rfl) (by rfl) (by rfl)

end NBABet
